import Mathlib

/-
Verification development for the eduhelx-utils local repository wrapper
(`eduhelx_utils/git.py` and `eduhelx_utils/process.py`).

Modelling conventions (shallow embedding):
- Python `str` is embedded as `List Char` (`Str` below); the Python string
  methods used by the code (`startswith`, `endswith`, `in`, `split`,
  `splitlines`, `strip`, slicing `[1:]` / `[:-1]`) are embedded as the
  executable functions below, faithful to CPython semantics for the
  newline-and-ASCII text the wrapper manipulates (`splitlines` is modelled
  for `\n` line boundaries, the only separator the wrapped tool emits).
- A subprocess invocation result is a `CommandResult` (decoded stdout,
  decoded stderr, exit code) exactly as `process.execute` returns it,
  trailing newlines already trimmed.
- Each wrapper operation is embedded as a pure function of the
  `CommandResult`(s) of the underlying tool invocation(s); raising a
  `GitException` / `InvalidGitRepositoryException` is embedded as
  `Except.error`, normal return as `Except.ok`.  A Python-level failure
  that is not one of the wrapper's exception classes (e.g. a `ValueError`
  from unpacking) is embedded as a distinguished `Failure.unhandledError`
  or as `Option.none`.
-/

namespace Eduhelx

/-- Python strings, embedded as lists of characters. -/
abbrev Str := List Char

/-- Python `s.startswith(pre)`. -/
def startswith : Str → Str → Bool
  | _, [] => true
  | [], _ :: _ => false
  | c :: s, p :: ps => c == p && startswith s ps

/-- Python `s.endswith(suf)`. -/
def endswith (s suf : Str) : Bool :=
  startswith s.reverse suf.reverse

/-- Python `needle in hay` (substring containment). -/
def containsSub (needle : Str) : Str → Bool
  | [] => startswith [] needle
  | c :: rest => startswith (c :: rest) needle || containsSub needle rest

/-- Python `s.split(sep)` for a one-character separator: always returns at
least one piece; adjacent separators produce empty pieces. -/
def pySplit (sep : Char) : Str → List Str
  | [] => [[]]
  | c :: rest =>
    match pySplit sep rest with
    | [] => [[]]
    | r :: rs => if c == sep then [] :: r :: rs else (c :: r) :: rs

/-- Python `s.splitlines()` for `\n` line boundaries: empty string gives no
lines, and a single trailing newline does not produce a trailing empty
line. -/
def splitlines (s : Str) : List Str :=
  if s = [] then []
  else if endswith s ['\n'] then pySplit '\n' s.dropLast
  else pySplit '\n' s

/-- Python `s.split(sep, maxsplit=1)` reduced to its two outcomes: `none`
when the separator does not occur, `some (before, after)` when it does. -/
def split1 (sep : Char) : Str → Option (Str × Str)
  | [] => none
  | c :: rest =>
    if c == sep then some ([], rest)
    else
      match split1 sep rest with
      | none => none
      | some (a, b) => some (c :: a, b)

/-- Python `s.split(sep, maxsplit=1)` as the list it actually returns (one
or two pieces). -/
def pySplitMax1 (sep : Char) (s : Str) : List Str :=
  match split1 sep s with
  | none => [s]
  | some (a, b) => [a, b]

/-- Python `s.lstrip()`. -/
def lstrip (s : Str) : Str :=
  s.dropWhile Char.isWhitespace

/-- Python `s.strip()`: whitespace removed from both ends. -/
def pyStrip (s : Str) : Str :=
  ((lstrip s).reverse.dropWhile Char.isWhitespace).reverse

/-- `process.remove_trailing_newline`: drop the last character when the
string ends in a newline, otherwise return it unchanged. -/
def remove_trailing_newline (s : Str) : Str :=
  if endswith s ['\n'] then s.dropLast else s

/-- The decoded result of one subprocess invocation, as returned by
`process.execute`: `(stdout, stderr, exit code)`, each stream with its
trailing newline already trimmed. -/
structure CommandResult where
  out : Str
  err : Str
  exitCode : Int
deriving DecidableEq

/-- The wrapper's exception taxonomy from `git.py`: `GitException(msg)`
and its subclass `InvalidGitRepositoryException` (raised without
arguments everywhere in the module). -/
inductive GitErr where
  | invalidRepository
  | gitException (msg : Str)
deriving DecidableEq

/-- A Python-level termination outcome that distinguishes the wrapper's
own exceptions from an unhandled interpreter error (such as the
`ValueError` raised by a failed sequence unpacking). -/
inductive Failure where
  | repoError (e : GitErr)
  | unhandledError
deriving DecidableEq

/-- `git.get_head_commit_id` applied to the result of its
`git rev-parse` invocation: raises `InvalidGitRepositoryException` on any
error text, otherwise returns the (trimmed) stdout, the full commit id. -/
def get_head_commit_id (res : CommandResult) : Except GitErr Str :=
  if res.err ≠ [] then .error .invalidRepository
  else .ok res.out

/-- `git.is_ancestor_commit` applied to the result of its
`git rev-list descendant` invocation: a membership test of the ancestor id
over the output lines, never raising. -/
def is_ancestor_commit (revListRes : CommandResult) (ancestor : Str) : Bool :=
  (splitlines revListRes.out).contains ancestor

/-- `git.clone_repository` applied to the result of its `git clone`
invocation: raises `GitException` exactly when the last line of stderr
(split on newlines) starts with the fatal marker. -/
def clone_repository (res : CommandResult) : Except GitErr Unit :=
  let lastLine := (pySplit '\n' res.err).getLastD []
  if startswith lastLine ("fatal:".toList) then .error (.gitException lastLine)
  else .ok ()

/-- The value `git.diff_status` hands back to its caller: either the list
of changed paths, or — reproducing the source's `return
InvalidGitRepositoryException()` statement — the exception object itself
returned as an ordinary value. -/
inductive DiffStatusValue where
  | paths (l : List Str)
  | exceptionValue
deriving DecidableEq

/-- `git.diff_status` applied to the result of its `git diff --name-only`
invocation.  The source *returns* (does not raise) an
`InvalidGitRepositoryException` instance when stderr contains the
not-a-repository diagnostic, so the embedding's result type is a plain
value and no error channel is ever used. -/
def diff_status (res : CommandResult) : DiffStatusValue :=
  if containsSub ("Not a git repository".toList) res.err then .exceptionValue
  else .paths (splitlines res.out)

/-- `git.merge` applied to the result of its `git merge` invocation and
the result of the follow-up `git diff --name-only --diff-filter U`
invocation: raises `GitException` when the last stderr line starts with
the fatal marker or stderr starts with a merge/error marker, otherwise
returns whatever `diff_status` produces for the follow-up invocation. -/
def merge (mergeRes diffRes : CommandResult) : Except GitErr DiffStatusValue :=
  let lastLine := if mergeRes.err.length > 0 then (splitlines mergeRes.err).getLastD [] else []
  if startswith lastLine ("fatal:".toList) then .error (.gitException mergeRes.err)
  else if startswith mergeRes.err ("merge:".toList) || startswith mergeRes.err ("error:".toList) then
    .error (.gitException mergeRes.err)
  else .ok (diff_status diffRes)

/-- `git.checkout` applied to the result of its `git checkout`
invocation: raises `GitException` when stderr contains the error marker,
`InvalidGitRepositoryException` when it contains the not-a-repository
fatal diagnostic, and otherwise returns normally. -/
def checkout (res : CommandResult) : Except GitErr Unit :=
  if containsSub ("error:".toList) res.err then .error (.gitException res.err)
  else if containsSub ("fatal: not a git repository".toList) res.err then .error .invalidRepository
  else .ok ()

/-- `git.delete_local_branch` applied to the result of its `git branch -d`
invocation: returns normally when stderr ends with the branch-not-found
text, raises `GitException` when stderr starts with the error marker, and
otherwise returns normally. -/
def delete_local_branch (res : CommandResult) : Except GitErr Unit :=
  if endswith res.err ("not found".toList) then .ok ()
  else if startswith res.err ("error:".toList) then .error (.gitException res.err)
  else .ok ()

/-- `git.commit` applied to the result of its `git commit` invocation and
the result of the subsequent `git rev-parse HEAD` invocation performed by
`get_head_commit_id`: `InvalidGitRepositoryException` on any error text,
`GitException` on a nonzero exit code with empty error text, otherwise
the full commit id of the new HEAD. -/
def commit (commitRes headRes : CommandResult) : Except GitErr Str :=
  if commitRes.err ≠ [] then .error .invalidRepository
  else if commitRes.exitCode ≠ 0 then .error (.gitException commitRes.out)
  else get_head_commit_id headRes

/-- The `CommitInfo` record built by `git.get_commit_info`. -/
structure CommitInfo where
  id : Str
  message : Str
  author_name : Str
  author_email : Str
  committer_name : Str
  committer_email : Str
deriving DecidableEq

/-- `git.get_commit_info` applied to the results of its two `git show -s`
invocations (identity-format query, then message query):
`InvalidGitRepositoryException` when either query has error text; the
four-way unpacking of the identity output happens before the message
query's error check, and a split that does not have exactly four fields
aborts with an unhandled `ValueError`. -/
def get_commit_info (commit_id : Str) (idRes msgRes : CommandResult) :
    Except Failure CommitInfo :=
  if idRes.err ≠ [] then .error (.repoError .invalidRepository)
  else
    match pySplit '\n' idRes.out with
    | [an, ae, cn, ce] =>
      if msgRes.err ≠ [] then .error (.repoError .invalidRepository)
      else .ok ⟨commit_id, msgRes.out, an, ae, cn, ce⟩
    | _ => .error .unhandledError

/-- Whether a `ModifiedPath` refers to a file or a directory. -/
inductive PathType where
  | file
  | directory
deriving DecidableEq

/-- One entry of `git.get_modified_paths`'s result: path relative to the
repository root (quotes stripped), the porcelain status code, and the
file/directory kind. -/
structure ModifiedPath where
  path : Str
  modification_type : Str
  type : PathType
deriving DecidableEq

/-- The quote stripping `git.get_modified_paths` applies to a path: drop
one leading double quote if present, then one trailing double quote if
present. -/
def stripQuotes (s : Str) : Str :=
  let s1 := if startswith s ['"'] then s.drop 1 else s
  if endswith s1 ['"'] then s1.dropLast else s1

/-- The loop body of `git.get_modified_paths` for one status line: strip
the line, record whether the stripped line ends in a path separator,
split on the first space into status code and path, strip and unquote the
path.  A line with no space makes the two-way unpacking fail
(`ValueError`), embedded as `none`. -/
def parseStatusLine (rawLine : Str) : Option ModifiedPath :=
  let line := pyStrip rawLine
  let directory := endswith line ['/']
  match split1 ' ' line with
  | none => none
  | some (modification_type, rp0) =>
    let rp := stripQuotes (pyStrip rp0)
    some ⟨rp, modification_type, if directory then .directory else .file⟩

/-- The accumulation loop of `git.get_modified_paths` over the status
lines, in output order; a parse failure on any line aborts the whole
call. -/
def gmpLoop : List Str → Option (List ModifiedPath)
  | [] => some []
  | l :: rest =>
    match parseStatusLine l with
    | none => none
    | some mp =>
      match gmpLoop rest with
      | none => none
      | some ms => some (mp :: ms)

/-- `git.get_modified_paths` applied to the result of its
`git status --porcelain=v1` invocation (the source performs no error-text
check here). -/
def get_modified_paths (res : CommandResult) : Option (List ModifiedPath) :=
  gmpLoop (splitlines res.out)

/-- The `files` argument accepted by `stage_files` / `reset` / `restore` /
`rm`: either a single path string or a list of path strings. -/
inductive Files where
  | single (s : Str)
  | many (l : List Str)

/-- The normalisation `if isinstance(files, str): files = [files]` shared
by the four path-taking operations. -/
def Files.toList : Files → List Str
  | .single s => [s]
  | .many l => l

/-- `git.stage_files`, with the subprocess modelled as an oracle from the
argument list to a `CommandResult`: builds `git add --verbose <files>`,
raises `InvalidGitRepositoryException` on any error text, otherwise
returns each stdout line split once on a space. -/
def stage_files (exec : List Str → CommandResult) (files : Files) :
    Except GitErr (List (List Str)) :=
  let res := exec (("git".toList) :: ("add".toList) :: ("--verbose".toList) :: files.toList)
  if res.err ≠ [] then .error .invalidRepository
  else .ok ((splitlines res.out).map (pySplitMax1 ' '))

/-- `git.reset`, with the subprocess modelled as an oracle: builds
`git reset <files>`, raises `InvalidGitRepositoryException` on any error
text. -/
def reset (exec : List Str → CommandResult) (files : Files) : Except GitErr Unit :=
  let res := exec (("git".toList) :: ("reset".toList) :: files.toList)
  if res.err ≠ [] then .error .invalidRepository
  else .ok ()

/-- `git.restore`, with the subprocess modelled as an oracle: builds
`git restore [--staged] [--worktree] [--source S] <files>`, raises
`GitException` when stderr contains an error or fatal marker. -/
def restore (exec : List Str → CommandResult) (files : Files)
    (source : Option Str) (staged worktree : Bool) : Except GitErr Unit :=
  let args := ("git".toList) :: ("restore".toList) ::
    ((if staged then [("--staged".toList)] else []) ++
     (if worktree then [("--worktree".toList)] else []) ++
     (match source with
      | some s => [("--source".toList), s]
      | none => []))
  let res := exec (args ++ files.toList)
  if containsSub ("error:".toList) res.err || containsSub ("fatal:".toList) res.err then
    .error (.gitException res.err)
  else .ok ()

/-- `git.rm`, with the subprocess modelled as an oracle: builds
`git rm [-r] [--cached] [--force] <files>`, raises `GitException` when
stderr contains an error or fatal marker. -/
def rm (exec : List Str → CommandResult) (files : Files)
    (recursive cached force : Bool) : Except GitErr Unit :=
  let args := ("git".toList) :: ("rm".toList) ::
    ((if recursive then [("-r".toList)] else []) ++
     (if cached then [("--cached".toList)] else []) ++
     (if force then [("--force".toList)] else []))
  let res := exec (args ++ files.toList)
  if containsSub ("error:".toList) res.err || containsSub ("fatal:".toList) res.err then
    .error (.gitException res.err)
  else .ok ()

-- Basic lemmas about the string primitives.

theorem startswith_nil (pre : Str) (h : pre ≠ []) : startswith [] pre = false := by
  cases pre with
  | nil => exact absurd rfl h
  | cons p ps => rfl

theorem startswith_single (c : Char) (x : Char) (s : Str) :
    startswith (x :: s) [c] = (x == c) := by
  simp [startswith]

theorem startswith_append_single (l m : Str) (c : Char) (h : l ≠ []) :
    startswith (l ++ m) [c] = startswith l [c] := by
  cases l with
  | nil => exact absurd rfl h
  | cons x xs => simp [startswith]

theorem endswith_concat (s : Str) (c : Char) :
    endswith (s ++ [c]) [c] = true := by
  simp [endswith, startswith]

theorem dropWhile_eq_self_of_head (p : Char → Bool) (l : Str)
    (h : ∀ c, l.head? = some c → p c = false) : l.dropWhile p = l := by
  cases l with
  | nil => rfl
  | cons a as =>
    rw [List.dropWhile_cons, h a rfl]
    simp

theorem pyStrip_eq_self (l : Str)
    (h1 : ∀ c, l.head? = some c → c.isWhitespace = false)
    (h2 : ∀ c, l.getLast? = some c → c.isWhitespace = false) :
    pyStrip l = l := by
  unfold pyStrip lstrip
  rw [dropWhile_eq_self_of_head _ _ h1]
  rw [dropWhile_eq_self_of_head _ _ (fun c hc => h2 c (by rwa [List.head?_reverse] at hc))]
  exact List.reverse_reverse l

theorem split1_space_append (code path : Str) (h : ∀ c ∈ code, (c == ' ') = false) :
    split1 ' ' (code ++ ' ' :: path) = some (code, path) := by
  induction code with
  | nil => simp [split1]
  | cons c cs ih =>
    have hc : (c == ' ') = false := h c (List.mem_cons_self c cs)
    have ih' := ih (fun x hx => h x (List.mem_cons_of_mem c hx))
    simp [split1, hc, ih']

theorem endswith_single_of_append (code path : Str) (c : Char) (hp : path ≠ []) :
    endswith (code ++ ' ' :: path) [c] = endswith path [c] := by
  unfold endswith
  rw [List.reverse_singleton]
  rw [List.reverse_append, List.reverse_cons, List.append_assoc]
  exact startswith_append_single path.reverse _ c (by simpa using hp)

theorem gmpLoop_iff_forall2 : ∀ (ls : List Str) (ms : List ModifiedPath),
    gmpLoop ls = some ms ↔
      List.Forall₂ (fun l mp => parseStatusLine l = some mp) ls ms := by
  intro ls
  induction ls with
  | nil =>
    intro ms
    constructor
    · intro h
      simp only [gmpLoop, Option.some.injEq] at h
      rw [← h]
      exact List.Forall₂.nil
    · intro h
      cases h
      rfl
  | cons l rest ih =>
    intro ms
    constructor
    · intro h
      simp only [gmpLoop] at h
      cases hpsl : parseStatusLine l with
      | none =>
        rw [hpsl] at h
        simp at h
      | some mp =>
        rw [hpsl] at h
        cases hr : gmpLoop rest with
        | none =>
          rw [hr] at h
          simp at h
        | some ms' =>
          rw [hr] at h
          simp only [Option.some.injEq] at h
          rw [← h]
          exact List.Forall₂.cons hpsl ((ih ms').mp hr)
    · intro h
      cases h with
      | cons hml hrest =>
        rename_i mp ms'
        simp only [gmpLoop]
        rw [hml, (ih ms').mpr hrest]

/-- Claim C1: refuted by the code. `checkout` and `merge` inspect their
error stream only for the recognized markers; a nonempty error stream
that matches none of them (here the text `unrecognized diagnostic text`,
which contains neither a fatal-severity nor an operation-severity marker)
makes both operations return normally, i.e. it is silently treated as
success and no failure carrying the diagnostic text is raised. -/
theorem checkout_merge_unrecognized_error_success :
    checkout ⟨[], ("unrecognized diagnostic text".toList), 1⟩ = .ok () ∧
    merge ⟨[], ("unrecognized diagnostic text".toList), 1⟩ ⟨[], [], 0⟩ = .ok (.paths []) ∧
    ("unrecognized diagnostic text".toList) ≠ ([] : Str) ∧
    containsSub ("fatal:".toList) ("unrecognized diagnostic text".toList) = false ∧
    containsSub ("error:".toList) ("unrecognized diagnostic text".toList) = false ∧
    containsSub ("merge:".toList) ("unrecognized diagnostic text".toList) = false := by
  exact ⟨rfl, rfl, by decide, by decide, by decide, by decide⟩

/-- Claim C2: refuted by the code. On an error stream containing the
not-a-repository diagnostic, `diff_status` executes `return
InvalidGitRepositoryException()` — it returns the exception object as an
ordinary value instead of raising it, so the operation completes
normally with a value that is neither a list of paths nor a raised
`RepositoryError`. -/
theorem diff_status_returns_exception_value :
    diff_status ⟨[], ("fatal: Not a git repository (or any of the parent directories)".toList), 128⟩ =
      .exceptionValue := by
  decide

/-- Claim C4, counterexample: an error stream that carries the
operation-severity marker `error:` on its second line (so the stream does
not start with the marker) and does not end in the branch-not-found text
makes `delete_local_branch` return normally instead of raising
`OperationFailed`, refuting the claim's second half. -/
theorem delete_local_branch_infix_error_counterexample :
    delete_local_branch ⟨[], ("warning: deletion stalled\nerror: cannot delete branch".toList), 1⟩ =
      .ok () ∧
    containsSub ("error:".toList) ("warning: deletion stalled\nerror: cannot delete branch".toList) = true ∧
    endswith ("warning: deletion stalled\nerror: cannot delete branch".toList) ("not found".toList) = false := by
  exact ⟨rfl, by decide, by decide⟩

/-- Claim C4, amended: when the error stream reports the branch as not
found (ends with the not-found text) the operation returns normally with
no error raised; for every other command result whose error stream
*starts with* the operation-severity error marker it raises
`OperationFailed` carrying the raw diagnostic text. -/
theorem delete_local_branch_spec (res : CommandResult) :
    (endswith res.err ("not found".toList) = true → delete_local_branch res = .ok ()) ∧
    (endswith res.err ("not found".toList) = false →
      startswith res.err ("error:".toList) = true →
      delete_local_branch res = .error (.gitException res.err)) := by
  constructor
  · intro h
    unfold delete_local_branch
    rw [h]
    simp
  · intro h1 h2
    unfold delete_local_branch
    rw [h1, h2]
    simp

/-- Witness for the amended C4 at concrete inputs: deleting with stderr
`branch not found` is a silent no-op, and stderr starting with `error:`
raises the exception carrying the raw text. -/
theorem delete_local_branch_spec_witness :
    delete_local_branch ⟨[], ("branch not found".toList), 1⟩ = .ok () ∧
    delete_local_branch ⟨[], ("error: cannot delete".toList), 1⟩ =
      .error (.gitException ("error: cannot delete".toList)) :=
  ⟨(delete_local_branch_spec ⟨[], ("branch not found".toList), 1⟩).1 (by decide),
   (delete_local_branch_spec ⟨[], ("error: cannot delete".toList), 1⟩).2 (by decide) (by decide)⟩

/-- Claim C5: `commit` raises `InvalidRepository` whenever the commit
invocation's error stream is nonempty, raises `OperationFailed` carrying
the raw output whenever the exit code is nonzero despite an empty error
stream, and otherwise returns exactly what the subsequent get-HEAD query
returns — in particular, when that query succeeds, the full commit id it
reports. -/
theorem commit_spec (commitRes headRes : CommandResult) :
    (commitRes.err ≠ [] → commit commitRes headRes = .error .invalidRepository) ∧
    (commitRes.err = [] → commitRes.exitCode ≠ 0 →
      commit commitRes headRes = .error (.gitException commitRes.out)) ∧
    (commitRes.err = [] → commitRes.exitCode = 0 →
      commit commitRes headRes = get_head_commit_id headRes) ∧
    (commitRes.err = [] → commitRes.exitCode = 0 → headRes.err = [] →
      commit commitRes headRes = .ok headRes.out) := by
  refine ⟨?_, ?_, ?_, ?_⟩
  · intro h
    simp [commit, h]
  · intro h1 h2
    simp [commit, h1, h2]
  · intro h1 h2
    simp [commit, h1, h2]
  · intro h1 h2 h3
    simp [commit, get_head_commit_id, h1, h2, h3]

/-- Witness for C5 at concrete inputs, one per classification branch,
including the success branch where the returned id matches the
subsequent get-HEAD query exactly. -/
theorem commit_spec_witness :
    commit ⟨("out".toList), ("fatal: boom".toList), 1⟩ ⟨[], [], 0⟩ = .error .invalidRepository ∧
    commit ⟨("msg".toList), [], 1⟩ ⟨[], [], 0⟩ = .error (.gitException ("msg".toList)) ∧
    commit ⟨[], [], 0⟩ ⟨("deadbeef".toList), [], 0⟩ =
      get_head_commit_id ⟨("deadbeef".toList), [], 0⟩ ∧
    commit ⟨[], [], 0⟩ ⟨("deadbeef".toList), [], 0⟩ = .ok ("deadbeef".toList) :=
  ⟨(commit_spec ⟨("out".toList), ("fatal: boom".toList), 1⟩ ⟨[], [], 0⟩).1 (by decide),
   (commit_spec ⟨("msg".toList), [], 1⟩ ⟨[], [], 0⟩).2.1 rfl (by decide),
   (commit_spec ⟨[], [], 0⟩ ⟨("deadbeef".toList), [], 0⟩).2.2.1 rfl rfl,
   (commit_spec ⟨[], [], 0⟩ ⟨("deadbeef".toList), [], 0⟩).2.2.2 rfl rfl rfl⟩

/-- Claim C6: the is-ancestor check is a plain boolean (its embedding has
no error channel because the source contains no raise), it holds exactly
when the ancestor id is a member of the line list of the descendant's
rev-list output, and whenever the rev-list output for a commit `X` lists
`X` itself (which the tool guarantees for every valid commit),
`is-ancestor(X, X)` is true. -/
theorem is_ancestor_commit_spec (res : CommandResult) (anc : Str) :
    (is_ancestor_commit res anc = true ↔ anc ∈ splitlines res.out) ∧
    (anc ∈ splitlines res.out → is_ancestor_commit res anc = true) := by
  have h : is_ancestor_commit res anc = true ↔ anc ∈ splitlines res.out := by
    simp [is_ancestor_commit]
  exact ⟨h, fun hm => h.mpr hm⟩

/-- Witness for C6 at a concrete input: the rev-list output
`abc\ndef` for commit `abc` lists `abc`, so `is-ancestor(abc, abc)` is
true. -/
theorem is_ancestor_commit_spec_witness :
    ("abc".toList) ∈ splitlines ("abc\ndef".toList) ∧
    is_ancestor_commit ⟨("abc\ndef".toList), [], 0⟩ ("abc".toList) = true :=
  ⟨by decide,
   (is_ancestor_commit_spec ⟨("abc\ndef".toList), [], 0⟩ ("abc".toList)).2 (by decide)⟩

/-- Claim C7: `clone_repository` raises exactly when the last line of the
captured error stream starts with the fatal marker; any other error
stream — including one whose earlier lines contain fatal text — is
treated as success. -/
theorem clone_repository_spec (res : CommandResult) :
    (startswith ((pySplit '\n' res.err).getLastD []) ("fatal:".toList) = true →
      clone_repository res = .error (.gitException ((pySplit '\n' res.err).getLastD []))) ∧
    (startswith ((pySplit '\n' res.err).getLastD []) ("fatal:".toList) = false →
      clone_repository res = .ok ()) := by
  constructor
  · intro h
    simp only [clone_repository]
    rw [h]
    simp
  · intro h
    simp only [clone_repository]
    rw [h]
    simp

/-- Witness for C7 at concrete inputs: an error stream whose final line
is fatal raises carrying that line, while an error stream with a fatal
first line but a non-fatal final line is treated as success. -/
theorem clone_repository_spec_witness :
    clone_repository ⟨[], ("Cloning into x\nfatal: repository not found".toList), 128⟩ =
      .error (.gitException ("fatal: repository not found".toList)) ∧
    clone_repository ⟨[], ("fatal: early text\nReceiving objects: 100%".toList), 0⟩ = .ok () :=
  ⟨(clone_repository_spec ⟨[], ("Cloning into x\nfatal: repository not found".toList), 128⟩).1
      (by decide),
   (clone_repository_spec ⟨[], ("fatal: early text\nReceiving objects: 100%".toList), 0⟩).2
      (by decide)⟩

/-- Claim C9: when both underlying queries report empty error streams but
the identity query's output does not split into exactly four
newline-separated fields, `get_commit_info` terminates with the unhandled
unpacking error, which is not a `RepositoryError` variant, instead of
returning a `CommitInfo`. -/
theorem get_commit_info_unhandled (cid : Str) (idRes msgRes : CommandResult)
    (h1 : idRes.err = []) (_hmsg : msgRes.err = [])
    (h4 : (pySplit '\n' idRes.out).length ≠ 4) :
    get_commit_info cid idRes msgRes = .error .unhandledError := by
  unfold get_commit_info
  rw [if_neg (by simp [h1])]
  split
  · rename_i an ae cn ce heq
    exact absurd (by rw [heq]; rfl) h4
  · rfl

/-- Witness for C9 at a concrete input: an identity output with only two
fields (both error streams empty) aborts with the unhandled error. -/
theorem get_commit_info_unhandled_witness :
    get_commit_info ("abc".toList)
      ⟨("Author Name\nauthor@example.org".toList), [], 0⟩
      ⟨("message".toList), [], 0⟩ = .error .unhandledError :=
  get_commit_info_unhandled ("abc".toList)
    ⟨("Author Name\nauthor@example.org".toList), [], 0⟩
    ⟨("message".toList), [], 0⟩ rfl rfl (by decide)

/-- Claim C10: for each of `stage_files`, `reset`, `restore` and `rm`,
invoking the operation with a single path string produces the same
command invocation — and therefore, for every subprocess oracle, the same
result — as invoking it with the one-element list of that path. -/
theorem single_vs_list_path_ops (exec : List Str → CommandResult) (p : Str)
    (source : Option Str) (staged worktree recursive cached force : Bool) :
    stage_files exec (.single p) = stage_files exec (.many [p]) ∧
    reset exec (.single p) = reset exec (.many [p]) ∧
    restore exec (.single p) source staged worktree =
      restore exec (.many [p]) source staged worktree ∧
    rm exec (.single p) recursive cached force =
      rm exec (.many [p]) recursive cached force :=
  ⟨rfl, rfl, rfl, rfl⟩

/-- Claim C3, counterexample: for the status line `?? "d/"` — status code
`??` of two characters followed by a single space and the path field
`"d/"` — the parsed entry's path (after quote stripping) is `d/`, which
ends in the path separator, yet its kind is `file`, because the source
decides the kind from the raw line before the quotes are stripped.  This
refutes the claim's clause that the kind is directory exactly when the
(quote-stripped) path ends in a path separator. -/
theorem parseStatusLine_quoted_directory_counterexample :
    parseStatusLine (("??".toList) ++ ' ' :: ("\"d/\"".toList)) =
      some ⟨("d/".toList), ("??".toList), .file⟩ ∧
    endswith ("d/".toList) ['/'] = true := by
  decide

/-- Claim C3, amended: for every status line `<code> <path>` whose status
code is nonempty, of at most two characters, and free of whitespace, and
whose path field is nonempty with no surrounding whitespace, the parsed
entry has `modificationType = <code>`, `path = <path>` with one
surrounding quote stripped from each end if present, and kind directory
exactly when the raw path field — before quote stripping — ends in a
path separator; and `get_modified_paths` succeeds with a result list
exactly when that list pairs with the status lines one-to-one, in the
tool's output order, each entry being the parse of its line. -/
theorem parseStatusLine_spec (code path : Str)
    (hcode : code ≠ [])
    (hlen : code.length ≤ 2)
    (hws : code.all (fun c => !c.isWhitespace) = true)
    (hp : path ≠ [])
    (hph : Option.all (fun c => !c.isWhitespace) path.head? = true)
    (hpl : Option.all (fun c => !c.isWhitespace) path.getLast? = true) :
    parseStatusLine (code ++ ' ' :: path) =
      some ⟨stripQuotes path, code,
        if endswith path ['/'] = true then .directory else .file⟩ ∧
    (∀ res ms, get_modified_paths res = some ms ↔
      List.Forall₂ (fun l mp => parseStatusLine l = some mp) (splitlines res.out) ms) := by
  have hwsAll : ∀ c ∈ code, c.isWhitespace = false := by
    intro c hc
    have := List.all_eq_true.mp hws c hc
    simpa using this
  have hline : pyStrip (code ++ ' ' :: path) = code ++ ' ' :: path := by
    apply pyStrip_eq_self
    · intro c hc
      cases code with
      | nil => exact absurd rfl hcode
      | cons a as =>
        rw [List.cons_append] at hc
        simp only [List.head?_cons, Option.some.injEq] at hc
        rw [← hc]
        exact hwsAll a (List.mem_cons_self a as)
    · intro c hc
      rw [List.getLast?_append_cons] at hc
      cases path with
      | nil => exact absurd rfl hp
      | cons p ps =>
        rw [List.getLast?_cons_cons] at hc
        rw [hc] at hpl
        simpa using hpl
  have hpathStrip : pyStrip path = path := by
    apply pyStrip_eq_self
    · intro c hc
      rw [hc] at hph
      simpa using hph
    · intro c hc
      rw [hc] at hpl
      simpa using hpl
  have hsplit : split1 ' ' (code ++ ' ' :: path) = some (code, path) := by
    apply split1_space_append
    intro c hc
    have hcw := hwsAll c hc
    cases hcs : (c == ' ') with
    | false => rfl
    | true =>
      have hce : c = ' ' := by simpa using hcs
      rw [hce] at hcw
      exact absurd hcw (by decide)
  constructor
  · simp only [parseStatusLine, hline, hsplit]
    rw [hpathStrip, endswith_single_of_append code path '/' hp]
  · intro res ms
    exact gmpLoop_iff_forall2 (splitlines res.out) ms

/-- Witness for the amended C3 at a concrete input: the line `?? d/`
parses to the entry with status code `??`, path `d/` and kind decided by
the path separator test on the raw path field. -/
theorem parseStatusLine_spec_witness :
    parseStatusLine (("??".toList) ++ ' ' :: ("d/".toList)) =
      some ⟨stripQuotes ("d/".toList), ("??".toList),
        if endswith ("d/".toList) ['/'] = true then .directory else .file⟩ :=
  (parseStatusLine_spec ("??".toList) ("d/".toList) (by decide) (by decide) (by decide)
    (by decide) (by decide) (by decide)).1

/-- Claim C8: for all text ending in a newline, the trailing-newline trim
returns the text minus that single trailing newline (removing exactly one
character, preserving all other content including embedded newlines), and
trimming text that does not end in a newline is the identity, so trimming
is idempotent on already-trimmed text. -/
theorem remove_trailing_newline_spec (s t : Str)
    (ht : endswith t ['\n'] = false) :
    remove_trailing_newline (s ++ ['\n']) = s ∧
    remove_trailing_newline t = t ∧
    remove_trailing_newline (remove_trailing_newline t) = remove_trailing_newline t := by
  have h1 : remove_trailing_newline (s ++ ['\n']) = s := by
    simp [remove_trailing_newline, endswith_concat]
  have h2 : remove_trailing_newline t = t := by
    simp [remove_trailing_newline, ht]
  exact ⟨h1, by rw [h2], by rw [h2, h2]⟩

/-- Witness for C8 at concrete inputs: trimming `"a\nb\n"` yields `"a\nb"`
(one newline removed, the embedded one kept), and trimming is the identity
on `"a\nb"`. -/
theorem remove_trailing_newline_spec_witness :
    remove_trailing_newline (("a\nb".toList) ++ ['\n']) = ("a\nb".toList) ∧
    remove_trailing_newline ("a\nb".toList) = ("a\nb".toList) ∧
    remove_trailing_newline (remove_trailing_newline ("a\nb".toList)) =
      remove_trailing_newline ("a\nb".toList) :=
  remove_trailing_newline_spec ("a\nb".toList) ("a\nb".toList) (by decide)

end Eduhelx
